import Mathlib

/-!
Verification development for pgn2gif (src/pgn2gif/pgn2gif.py, class PgnToGifCreator).

The rendering core is embedded shallowly:
* a board snapshot is an association list from squares (two characters,
  file then rank) to piece identifiers (the empty string means an empty
  square, matching Python string truthiness);
* the live PIL canvas is abstracted as the ordered list of drawing
  operations performed on it (tile paste, sprite paste, arrow draw);
  Python `Image.copy()` is value semantics here, so a captured frame is a
  value of the same `Canvas` type;
* the external `chess` module (not part of this repository's source tree)
  is abstracted by the data it feeds the renderer: an initial snapshot
  constant and, per `ChessGame`, a start state plus the list of successive
  states produced by `next()`; the `is_finished` loop corresponds to the
  end of that list;
* the out-of-range list index `changed_squares[1]` that Python would raise
  `IndexError` on is modelled by returning `none` from `createGifStep` /
  `createGif`.
-/

set_option maxRecDepth 4000

/-- A square identifier: the file character (a-h) and the rank character (1-8),
the two characters of tokens such as "e4". -/
abbrev Square := Char × Char

/-- A piece identifier; the empty string is the empty-square marker
(Python string truthiness). -/
abbrev Piece := String

/-- A board snapshot: an association list from squares to piece identifiers,
in the snapshot's own key order (Python dict insertion order). -/
abbrev Snapshot := List (Square × Piece)

/-- The key list of a snapshot, in its own iteration order
(`game.state.keys()`). -/
def stateKeys (st : Snapshot) : List Square := st.map Prod.fst

/-- Dictionary lookup in a snapshot (first matching key). -/
def lookupSq (st : Snapshot) (sq : Square) : Option Piece :=
  match st with
  | [] => none
  | e :: rest => if e.1 = sq then some e.2 else lookupSq rest sq

/-- The occupant of a square, defaulting to the empty marker; mirrors
`game_state[square]` at call sites where the key is known to be present. -/
def pieceAt (st : Snapshot) (sq : Square) : Piece := (lookupSq st sq).getD ""

/-- A well-formed square: file in a..h (character codes 97..104) and rank
in 1..8 (character codes 49..56). -/
def validSquare (sq : Square) : Prop :=
  97 ≤ sq.1.toNat ∧ sq.1.toNat ≤ 104 ∧ 49 ≤ sq.2.toNat ∧ sq.2.toNat ≤ 56

instance (sq : Square) : Decidable (validSquare sq) := by
  unfold validSquare
  infer_instance

/-- `PgnToGifCreator._BOARD_SIZE = 480`. -/
def BOARD_SIZE : Nat := 480

/-- `PgnToGifCreator._SQ_SIZE = _BOARD_SIZE // 8`. -/
def SQ_SIZE : Nat := BOARD_SIZE / 8

/-- `_coordinates_of_square`: `c = ord(square[0]) - 97`,
`r = int(square[1]) - 1` (for a digit character this is code - 49);
reversed gives `((7-c)*sq, r*sq)`, otherwise `(c*sq, (7-r)*sq)`. -/
def coordinatesOfSquare (reverse : Bool) (square : Square) : Nat × Nat :=
  let c := square.1.toNat - 97
  let r := square.2.toNat - 49
  if reverse then ((7 - c) * SQ_SIZE, r * SQ_SIZE)
  else (c * SQ_SIZE, (7 - r) * SQ_SIZE)

/-- The checker test of `_update_board_image`:
`sum(crd) % (self._SQ_SIZE * 2) == 0` selects the white (light) tile. -/
def checkerLight (reverse : Bool) (square : Square) : Bool :=
  let crd := coordinatesOfSquare reverse square
  decide ((crd.1 + crd.2) % (SQ_SIZE * 2) = 0)

/-- The pixel center of a square: its origin offset by half a square size
(`off = self._SQ_SIZE / 2`, true division). -/
def pixelCenter (reverse : Bool) (square : Square) : ℚ × ℚ :=
  let crd := coordinatesOfSquare reverse square
  ((crd.1 : ℚ) + (SQ_SIZE : ℚ) / 2, (crd.2 : ℚ) + (SQ_SIZE : ℚ) / 2)

/-- One drawing operation on the canvas: a solid checker tile paste
(recorded with the tile's color string), a piece sprite paste (recorded
with the piece identifier the sprite was cached under), or a `_draw_arrow`
call with its four pixel arguments (`x0 y0 x1 y1`; the shaft runs from
`(x0, y0)` to `(x1, y1)` and the head apex sits at `(x1, y1)`). -/
inductive DrawOp where
  | tile (crd : Nat × Nat) (color : String)
  | sprite (crd : Nat × Nat) (piece : Piece)
  | arrow (x0 y0 x1 y1 : ℚ)
deriving DecidableEq

/-- A canvas, abstracted as the ordered list of drawing operations that
produced its pixels. -/
abbrev Canvas := List DrawOp

/-- Whether an operation is an arrow-overlay draw. -/
def DrawOp.isArrowOp : DrawOp → Bool
  | .arrow _ _ _ _ => true
  | _ => false

/-- A canvas whose pixels come from square repainting only: it contains no
arrow-overlay operation. -/
def NoArrow (c : Canvas) : Prop := ∀ op ∈ c, op.isArrowOp = false

/-- A captured frame in terms of the live canvas it was copied from:
either exactly the copy, or the copy with a single arrow overlay drawn on
top of it (and on it only). -/
def FrameOfCanvas (frame live : Canvas) : Prop :=
  frame = live ∨ ∃ q0 q1 q2 q3 : ℚ, frame = live ++ [DrawOp.arrow q0 q1 q2 q3]

/-- The changed-square set of one ply:
`[s for s in game.state.keys() if game.state[s] != previous[s]]`. -/
def changedSquares (previous current : Snapshot) : List Square :=
  (stateKeys current).filter (fun s => decide (lookupSq current s ≠ lookupSq previous s))

/-- The mutable state of a `PgnToGifCreator` instance.  `ws`/`bs` are the
solid tile images `self._ws`/`self._bs` (abstracted by their color string)
and `initial_board` is `self._initial_board`; all three are only ever read
after `_draw_board` has run (guarded by `_should_redraw`, true at
construction), so they carry harmless placeholder values initially. -/
structure Creator where
  duration : ℚ
  pieces : List Piece
  reverse : Bool
  ws_color : String
  bs_color : String
  arrow : Bool
  should_redraw : Bool
  ws : String
  bs : String
  initial_board : Canvas
deriving DecidableEq

/-- `PgnToGifCreator.__init__`. -/
def mkCreator (reverse : Bool) (duration : ℚ) (ws_color bs_color : String) (arrow : Bool) :
    Creator :=
  { duration := duration
    pieces := []
    reverse := reverse
    ws_color := ws_color
    bs_color := bs_color
    arrow := arrow
    should_redraw := true
    ws := ""
    bs := ""
    initial_board := [] }

/-- The `reverse` property setter: stores the flag and marks the cached
initial canvas stale. -/
def setReverse (s : Creator) (reverse : Bool) : Creator :=
  { s with reverse := reverse, should_redraw := true }

/-- The `ws_color` property setter. -/
def setWsColor (s : Creator) (ws_color : String) : Creator :=
  { s with ws_color := ws_color, should_redraw := true }

/-- The `bs_color` property setter. -/
def setBsColor (s : Creator) (bs_color : String) : Creator :=
  { s with bs_color := bs_color, should_redraw := true }

/-- One configuration mutation on a long-lived renderer instance: a write
through one of the three invalidating property setters. -/
inductive ConfigMutation where
  | rev (b : Bool)
  | wsc (c : String)
  | bsc (c : String)

/-- Apply a configuration mutation through the corresponding setter. -/
def applyMutation : ConfigMutation → Creator → Creator
  | .rev b, s => setReverse s b
  | .wsc c, s => setWsColor s c
  | .bsc c, s => setBsColor s c

/-- Modelled from the spec: the asset directory scanned by `_draw_board`
is not part of this repository's source tree; per spec section 4.1 it holds
one sprite file per piece identifier, cached keyed by filename stem. -/
def ASSETS : List Piece :=
  ["wp", "wr", "wn", "wb", "wq", "wk", "bp", "br", "bn", "bb", "bq", "bk"]

/-- Back-rank piece kind for a file character (rook, knight, bishop,
queen, king in standard placement). -/
def backKind (f : Char) : String :=
  if f = 'a' ∨ f = 'h' then "r"
  else if f = 'b' ∨ f = 'g' then "n"
  else if f = 'c' ∨ f = 'f' then "b"
  else if f = 'd' then "q"
  else "k"

/-- Standard starting occupant of a square (empty marker off the four
populated ranks). -/
def initialPiece (sq : Square) : Piece :=
  if sq.2 = '2' then "wp"
  else if sq.2 = '7' then "bp"
  else if sq.2 = '1' then String.append "w" (backKind sq.1)
  else if sq.2 = '8' then String.append "b" (backKind sq.1)
  else ""

/-- The eight file characters. -/
def fileChars : List Char := ['a', 'b', 'c', 'd', 'e', 'f', 'g', 'h']

/-- The eight rank characters. -/
def rankChars : List Char := ['1', '2', '3', '4', '5', '6', '7', '8']

/-- All 64 squares. -/
def allSquares : List Square :=
  fileChars.flatMap (fun f => rankChars.map (fun r => (f, r)))

/-- Modelled from the spec: `chess.INITIAL_STATE`, the initial 64-entry
snapshot constant of the external chess collaborator (not under src/),
mapping every square to its standard starting occupant or the empty
marker. -/
def INITIAL_STATE : Snapshot := allSquares.map (fun sq => (sq, initialPiece sq))

/-- `_update_board_image`: for each changed square, paste the light or dark
tile at its coordinates according to the checker test, then paste the
occupant's sprite on top when the square is occupied. -/
def updateBoardImage (s : Creator) (board : Canvas) (gameState : Snapshot)
    (changed : List Square) : Canvas :=
  match changed with
  | [] => board
  | square :: rest =>
    let crd := coordinatesOfSquare s.reverse square
    let board1 := board ++ [DrawOp.tile crd (if checkerLight s.reverse square then s.ws else s.bs)]
    let piece := pieceAt gameState square
    let board2 := if piece ≠ "" then board1 ++ [DrawOp.sprite crd piece] else board1
    updateBoardImage s board2 gameState rest

/-- `_draw_board`: load the sprite cache if it is empty, rebuild the solid
tiles from the current colors, repaint all 64 squares of the initial
snapshot onto a fresh canvas, and clear the stale flag. -/
def drawBoard (s : Creator) : Creator :=
  let pieces := if s.pieces = [] then ASSETS else s.pieces
  let s1 : Creator := { s with pieces := pieces, ws := s.ws_color, bs := s.bs_color }
  { s1 with
    initial_board := updateBoardImage s1 [] INITIAL_STATE (stateKeys INITIAL_STATE)
    should_redraw := false }

/-- `math.atan2`, via the argument of the complex number `x + y*i`. -/
noncomputable def atan2 (y x : ℝ) : ℝ := Complex.arg ⟨x, y⟩

/-- The geometry of `_draw_arrow`: given the call arguments
`(x0, y0, x1, y1)`, the two base vertices and the apex of the triangular
arrowhead polygon, in the order they are passed to `draw.polygon`. -/
noncomputable def drawArrowVertices (x0 y0 x1 y1 : ℝ) : (ℝ × ℝ) × (ℝ × ℝ) × (ℝ × ℝ) :=
  let xb := 0.8 * (x1 - x0) + x0
  let yb := 0.8 * (y1 - y0) + y0
  if x0 = x1 then ((xb - 10, yb), (xb + 10, yb), (x1, y1))
  else if y0 = y1 then ((xb, yb + 10), (xb, yb - 10), (x1, y1))
  else
    let alpha := atan2 (y1 - y0) (x1 - x0) - 90 * Real.pi / 180
    let a := 8 * Real.cos alpha
    let b := 8 * Real.sin alpha
    ((xb + a, yb + b), (xb - a, yb - b), (x1, y1))

/-- One iteration of the `while not game.is_finished` loop of `create_gif`:
repaint the changed squares on the live canvas, capture a copy, and when
the arrow overlay is enabled and the changed-square list is non-empty,
draw the arrow on the copy only.  The body indexes `changed_squares[1]`
under a guard that only checks non-emptiness; the resulting Python
`IndexError` is `none`. -/
def createGifStep (s : Creator) (board : Canvas) (previous current : Snapshot) :
    Option (Canvas × Canvas) :=
  let changed := changedSquares previous current
  let board1 := updateBoardImage s board current changed
  if s.arrow then
    if 0 < changed.length then
      match changed[1]? with
      | none => none
      | some c1 =>
        let empty : Nat := if pieceAt current c1 ≠ "" then 1 else 0
        let fr := coordinatesOfSquare s.reverse ((changed[empty]?).getD c1)
        let tgt := coordinatesOfSquare s.reverse ((changed[1 - empty]?).getD c1)
        some (board1, board1 ++
          [DrawOp.arrow ((tgt.1 : ℚ) + (SQ_SIZE : ℚ) / 2) ((tgt.2 : ℚ) + (SQ_SIZE : ℚ) / 2)
                        ((fr.1 : ℚ) + (SQ_SIZE : ℚ) / 2) ((fr.2 : ℚ) + (SQ_SIZE : ℚ) / 2)])
    else some (board1, board1)
  else some (board1, board1)

/-- The full rendering loop: fold `createGifStep` over the successive game
states, threading the live canvas and appending one captured frame per
ply. -/
def runPlies (s : Creator) (prev : Snapshot) (plies : List Snapshot) (board : Canvas)
    (frames : List Canvas) : Option (Canvas × List Canvas) :=
  match plies with
  | [] => some (board, frames)
  | cur :: rest =>
    match createGifStep s board prev cur with
    | none => none
    | some (board1, frame) => runPlies s cur rest board1 (frames ++ [frame])

/-- The square-repainting effect of the loop alone: the live canvas after
consuming the given plies, with no frame capture and no overlay. -/
def repaintRun (s : Creator) (prev : Snapshot) (plies : List Snapshot) (board : Canvas) :
    Canvas :=
  match plies with
  | [] => board
  | cur :: rest => repaintRun s cur rest (updateBoardImage s board cur (changedSquares prev cur))

/-- Modelled from the spec: the data a `chess.ChessGame` (external
collaborator, not under src/) feeds the loop — its state at construction
and the list of successive states after each `next()`, finite because
`is_finished` eventually holds. -/
structure ChessGameModel where
  start : Snapshot
  plies : List Snapshot

/-- The encoded animation handed to `frames[0].save`: the frame sequence,
the integer millisecond duration, and `loop=0` (loop forever). -/
structure GifResult where
  frames : List Canvas
  duration_ms : Int
  loop : Nat
deriving DecidableEq

/-- Python `int()` truncation toward zero on a rational. -/
def ratTrunc (q : ℚ) : Int := q.num.tdiv (q.den : Int)

/-- `create_gif`: redraw the cached initial board if stale, start the live
canvas from a copy of it, capture the initial frame, run the loop, append
three extra copies of the final frame, and encode with
`duration=int(self.duration*1000), loop=0`.  A `none` is the Python
exception escaping from the arrow branch. -/
def createGif (s : Creator) (game : ChessGameModel) : Option (Creator × GifResult) :=
  let s1 := if s.should_redraw then drawBoard s else s
  let board := s1.initial_board
  let frames : List Canvas := [board]
  match runPlies s1 game.start game.plies board frames with
  | none => none
  | some (_, fs) =>
    let last := fs.getLastD []
    some (s1, { frames := fs ++ [last, last, last]
                duration_ms := ratTrunc (s1.duration * 1000)
                loop := 0 })

/-- Named squares used in concrete statements. -/
def squareA1 : Square := ('a', '1')

def squareB1 : Square := ('b', '1')

def squareH8 : Square := ('h', '8')

def squareE2 : Square := ('e', '2')

def squareE4 : Square := ('e', '4')

/-- Default light-square color of the CLI. -/
def wsDefault : String := "#f0d9b5"

/-- Default dark-square color of the CLI. -/
def bsDefault : String := "#b58863"

/-- A replacement color used to exercise the color setters. -/
def demoColor : String := "red"

/-- An empty result used only as a `getD` fallback. -/
def emptyGifResult : GifResult := { frames := [], duration_ms := 0, loop := 0 }

/-- A freshly constructed creator with default options (arrow disabled). -/
def demoCreator : Creator := mkCreator false (2 / 5) wsDefault bsDefault false

/-- A freshly constructed creator with the arrow overlay enabled. -/
def demoCreatorArrow : Creator := mkCreator false (2 / 5) wsDefault bsDefault true

/-- A two-square snapshot before the move e2-e4. -/
def snapE2E4start : Snapshot := [(squareE2, "wp"), (squareE4, "")]

/-- A two-square snapshot after the move e2-e4. -/
def snapE2E4after : Snapshot := [(squareE2, ""), (squareE4, "wp")]

/-- A one-ply game over the two-square snapshots. -/
def demoGame : ChessGameModel := { start := snapE2E4start, plies := [snapE2E4after] }

/-- A zero-ply game: the source is finished immediately. -/
def demoGameEmpty : ChessGameModel := { start := INITIAL_STATE, plies := [] }

/-- A snapshot pair whose changed-square set is a singleton. -/
def snapSingleBefore : Snapshot := [(squareA1, "")]

def snapSingleAfter : Snapshot := [(squareA1, "wq")]

/-- The result of rendering `demoGame` with the default creator. -/
def demoPair1 : Creator × GifResult :=
  (createGif demoCreator demoGame).getD (demoCreator, emptyGifResult)

/-- The creator after mutating the light-square color on the instance that
produced `demoPair1`. -/
def demoMutCreator : Creator := applyMutation (ConfigMutation.wsc demoColor) demoPair1.1

/-- The result of rendering `demoGame` again after the color mutation. -/
def demoPair2 : Creator × GifResult :=
  (createGif demoMutCreator demoGame).getD (demoCreator, emptyGifResult)

/-! ### Helper lemmas -/

/-- The apex of the arrowhead polygon is the `(x1, y1)` argument, in every
branch of `_draw_arrow`. -/
theorem drawArrowVertices_apex (x0 y0 x1 y1 : ℝ) :
    (drawArrowVertices x0 y0 x1 y1).2.2 = (x1, y1) := by
  simp only [drawArrowVertices]
  split_ifs <;> rfl

/-- Branch equation of `_draw_arrow` for a purely vertical line. -/
theorem drawArrowVertices_vert (x0 y0 x1 y1 : ℝ) (hx : x0 = x1) :
    drawArrowVertices x0 y0 x1 y1 =
      ((0.8 * (x1 - x0) + x0 - 10, 0.8 * (y1 - y0) + y0),
       (0.8 * (x1 - x0) + x0 + 10, 0.8 * (y1 - y0) + y0), (x1, y1)) := by
  simp only [drawArrowVertices, if_pos hx]

/-- Branch equation of `_draw_arrow` for a purely horizontal line. -/
theorem drawArrowVertices_horiz (x0 y0 x1 y1 : ℝ) (hx : ¬x0 = x1) (hy : y0 = y1) :
    drawArrowVertices x0 y0 x1 y1 =
      ((0.8 * (x1 - x0) + x0, 0.8 * (y1 - y0) + y0 + 10),
       (0.8 * (x1 - x0) + x0, 0.8 * (y1 - y0) + y0 - 10), (x1, y1)) := by
  simp only [drawArrowVertices, if_neg hx, if_pos hy]

/-- Branch equation of `_draw_arrow` for an oblique line. -/
theorem drawArrowVertices_diag (x0 y0 x1 y1 : ℝ) (hx : ¬x0 = x1) (hy : ¬y0 = y1) :
    drawArrowVertices x0 y0 x1 y1 =
      ((0.8 * (x1 - x0) + x0 + 8 * Real.cos (atan2 (y1 - y0) (x1 - x0) - 90 * Real.pi / 180),
        0.8 * (y1 - y0) + y0 + 8 * Real.sin (atan2 (y1 - y0) (x1 - x0) - 90 * Real.pi / 180)),
       (0.8 * (x1 - x0) + x0 - 8 * Real.cos (atan2 (y1 - y0) (x1 - x0) - 90 * Real.pi / 180),
        0.8 * (y1 - y0) + y0 - 8 * Real.sin (atan2 (y1 - y0) (x1 - x0) - 90 * Real.pi / 180)),
       (x1, y1)) := by
  simp only [drawArrowVertices, if_neg hx, if_neg hy]

/-! ### Claim theorems -/

/-- C4: for every valid square, the coordinate mapper is the pure function
taking file index `c` to column `c` and rank index `r` to row `7 - r` when
not reversed (so "a1" maps to the bottom-left origin `(0, 7*square_size)`),
and to `((7-c)*square_size, r*square_size)` when reversed (so "a1" maps to
the top-right); reversal is the 180-degree rotation of the board, i.e. the
two mappings of any valid square sum to `(7*square_size, 7*square_size)`
componentwise. -/
theorem coordinates_of_square_mapping (sq : Square) (h : validSquare sq) :
    coordinatesOfSquare false sq =
      ((sq.1.toNat - 97) * SQ_SIZE, (7 - (sq.2.toNat - 49)) * SQ_SIZE)
    ∧ coordinatesOfSquare true sq =
      ((7 - (sq.1.toNat - 97)) * SQ_SIZE, (sq.2.toNat - 49) * SQ_SIZE)
    ∧ coordinatesOfSquare false squareA1 = (0, 7 * SQ_SIZE)
    ∧ coordinatesOfSquare true squareA1 = (7 * SQ_SIZE, 0)
    ∧ (coordinatesOfSquare true sq).1 + (coordinatesOfSquare false sq).1 = 7 * SQ_SIZE
    ∧ (coordinatesOfSquare true sq).2 + (coordinatesOfSquare false sq).2 = 7 * SQ_SIZE := by
  obtain ⟨h1, h2, h3, h4⟩ := h
  refine ⟨rfl, rfl, rfl, rfl, ?_, ?_⟩
  · show (7 - (sq.1.toNat - 97)) * SQ_SIZE + (sq.1.toNat - 97) * SQ_SIZE = 7 * SQ_SIZE
    have e : SQ_SIZE = 60 := rfl
    rw [e]; omega
  · show (sq.2.toNat - 49) * SQ_SIZE + (7 - (sq.2.toNat - 49)) * SQ_SIZE = 7 * SQ_SIZE
    have e : SQ_SIZE = 60 := rfl
    rw [e]; omega

/-- Witness for C4 at the concrete square "e4". -/
theorem coordinates_of_square_mapping_witness :
    validSquare squareE4
    ∧ (coordinatesOfSquare false squareE4 =
        ((squareE4.1.toNat - 97) * SQ_SIZE, (7 - (squareE4.2.toNat - 49)) * SQ_SIZE)
      ∧ coordinatesOfSquare true squareE4 =
        ((7 - (squareE4.1.toNat - 97)) * SQ_SIZE, (squareE4.2.toNat - 49) * SQ_SIZE)
      ∧ coordinatesOfSquare false squareA1 = (0, 7 * SQ_SIZE)
      ∧ coordinatesOfSquare true squareA1 = (7 * SQ_SIZE, 0)
      ∧ (coordinatesOfSquare true squareE4).1 + (coordinatesOfSquare false squareE4).1
          = 7 * SQ_SIZE
      ∧ (coordinatesOfSquare true squareE4).2 + (coordinatesOfSquare false squareE4).2
          = 7 * SQ_SIZE) :=
  ⟨by decide, coordinates_of_square_mapping squareE4 (by decide)⟩

/-- C5: the pixel-coordinate checker test classifies squares consistently
with the standard checkerboard alternation: "a1" and "h8" share a color
class, "a1" and "b1" differ, and a valid square's class is independent of
the reversal setting. -/
theorem checker_parity_classes (sq : Square) (h : validSquare sq) (rv : Bool) :
    checkerLight rv squareA1 = checkerLight rv squareH8
    ∧ checkerLight rv squareA1 ≠ checkerLight rv squareB1
    ∧ checkerLight true sq = checkerLight false sq := by
  obtain ⟨h1, h2, h3, h4⟩ := h
  refine ⟨?_, ?_, ?_⟩
  · cases rv <;> rfl
  · cases rv <;> decide
  · show decide (((7 - (sq.1.toNat - 97)) * SQ_SIZE + (sq.2.toNat - 49) * SQ_SIZE)
        % (SQ_SIZE * 2) = 0)
      = decide (((sq.1.toNat - 97) * SQ_SIZE + (7 - (sq.2.toNat - 49)) * SQ_SIZE)
        % (SQ_SIZE * 2) = 0)
    rw [decide_eq_decide]
    have e : SQ_SIZE = 60 := rfl
    rw [e]
    omega

/-- Witness for C5 at the concrete square "e4" with reversal on. -/
theorem checker_parity_classes_witness :
    validSquare squareE4
    ∧ (checkerLight true squareA1 = checkerLight true squareH8
      ∧ checkerLight true squareA1 ≠ checkerLight true squareB1
      ∧ checkerLight true squareE4 = checkerLight false squareE4) :=
  ⟨by decide, checker_parity_classes squareE4 (by decide) true⟩

/-- C8: the changed-square set of a ply contains exactly the squares whose
occupant differs between the previous and the current snapshot, and it is
a sublist of the current snapshot's own key list, i.e. it is listed in the
current snapshot's key-iteration order. -/
theorem changed_squares_membership_order (previous current : Snapshot) (sq : Square) :
    (sq ∈ changedSquares previous current ↔
      sq ∈ stateKeys current ∧ lookupSq current sq ≠ lookupSq previous sq)
    ∧ (changedSquares previous current).Sublist (stateKeys current) := by
  constructor
  · simp [changedSquares, List.mem_filter]
  · exact List.filter_sublist _

/-- C2 counterexample: with a source that is already finished with zero
plies, `create_gif` does not fail; it emits an output animation, of 4
frames. -/
theorem create_gif_zero_ply_emits_output_cex :
    createGif demoCreator demoGameEmpty ≠ none
    ∧ (createGif demoCreator demoGameEmpty).map (fun pr => pr.2.frames.length) = some 4 := by
  have h2 : (createGif demoCreator demoGameEmpty).map (fun pr => pr.2.frames.length)
      = some 4 := rfl
  refine ⟨?_, h2⟩
  intro hnone
  rw [hnone] at h2
  simp at h2

/-- C2 amended: for every creator state and every snapshot source that is
already finished with zero plies, `create_gif` raises nothing and emits an
animation of exactly 4 frames (the unconditionally captured initial frame
plus the three duplicate holds of it); the frame sequence is never
empty. -/
theorem create_gif_zero_ply_four_frames (s : Creator) (start : Snapshot) :
    (createGif s { start := start, plies := [] }).map (fun pr => pr.2.frames.length) = some 4
    ∧ createGif s { start := start, plies := [] } ≠ none := by
  have h1 : (createGif s { start := start, plies := [] }).map
      (fun pr => pr.2.frames.length) = some 4 := rfl
  refine ⟨h1, ?_⟩
  intro hnone
  rw [hnone] at h1
  simp at h1

/-- C6: for distinct endpoints, `_draw_arrow` puts the arrowhead apex at
the destination `(x1, y1)`, the base center 80 percent of the way from
source to destination, and the two base vertices offset from the base
center by `(±10, 0)` for a purely vertical line, `(0, ±10)` for a purely
horizontal line, and `±(8·cos θ, 8·sin θ)` with
`θ = atan2(Δy, Δx) − 90°` otherwise. -/
theorem draw_arrow_geometry (x0 y0 x1 y1 : ℝ) (h : (x0, y0) ≠ (x1, y1)) :
    (drawArrowVertices x0 y0 x1 y1).2.2 = (x1, y1)
    ∧ (x0 = x1 →
        (drawArrowVertices x0 y0 x1 y1).1
          = (x0 + 0.8 * (x1 - x0) - 10, y0 + 0.8 * (y1 - y0))
        ∧ (drawArrowVertices x0 y0 x1 y1).2.1
          = (x0 + 0.8 * (x1 - x0) + 10, y0 + 0.8 * (y1 - y0)))
    ∧ (x0 ≠ x1 → y0 = y1 →
        (drawArrowVertices x0 y0 x1 y1).1
          = (x0 + 0.8 * (x1 - x0), y0 + 0.8 * (y1 - y0) + 10)
        ∧ (drawArrowVertices x0 y0 x1 y1).2.1
          = (x0 + 0.8 * (x1 - x0), y0 + 0.8 * (y1 - y0) - 10))
    ∧ (x0 ≠ x1 → y0 ≠ y1 →
        (drawArrowVertices x0 y0 x1 y1).1
          = (x0 + 0.8 * (x1 - x0) + 8 * Real.cos (atan2 (y1 - y0) (x1 - x0) - Real.pi / 2),
             y0 + 0.8 * (y1 - y0) + 8 * Real.sin (atan2 (y1 - y0) (x1 - x0) - Real.pi / 2))
        ∧ (drawArrowVertices x0 y0 x1 y1).2.1
          = (x0 + 0.8 * (x1 - x0) - 8 * Real.cos (atan2 (y1 - y0) (x1 - x0) - Real.pi / 2),
             y0 + 0.8 * (y1 - y0) - 8 * Real.sin (atan2 (y1 - y0) (x1 - x0) - Real.pi / 2))) := by
  refine ⟨drawArrowVertices_apex x0 y0 x1 y1, ?_, ?_, ?_⟩
  · intro hx
    rw [drawArrowVertices_vert x0 y0 x1 y1 hx]
    refine ⟨?_, ?_⟩ <;> simp only [Prod.mk.injEq] <;> exact ⟨by ring, by ring⟩
  · intro hx hy
    rw [drawArrowVertices_horiz x0 y0 x1 y1 hx hy]
    refine ⟨?_, ?_⟩ <;> simp only [Prod.mk.injEq] <;> exact ⟨by ring, by ring⟩
  · intro hx hy
    rw [drawArrowVertices_diag x0 y0 x1 y1 hx hy]
    have hang : atan2 (y1 - y0) (x1 - x0) - 90 * Real.pi / 180
        = atan2 (y1 - y0) (x1 - x0) - Real.pi / 2 := by ring
    rw [hang]
    refine ⟨?_, ?_⟩ <;> simp only [Prod.mk.injEq] <;> exact ⟨by ring, by ring⟩

/-- Witness for C6 at the distinct endpoints (0,0) and (3,4). -/
theorem draw_arrow_geometry_witness :
    (((0 : ℝ), (0 : ℝ)) ≠ ((3 : ℝ), (4 : ℝ)))
    ∧ (drawArrowVertices 0 0 3 4).2.2 = (3, 4) := by
  have hne : (((0 : ℝ), (0 : ℝ)) ≠ ((3 : ℝ), (4 : ℝ))) := by
    norm_num [Prod.ext_iff]
  exact ⟨hne, (draw_arrow_geometry 0 0 3 4 hne).1⟩

/-- C3: with the arrow overlay enabled and a changed-square set of at least
two entries of which exactly one of the first two is occupied in the
current snapshot, the loop body draws the arrow between the pixel centers
of those first two entries (square origin plus half a square size), the
call's `(x1, y1)` (where the arrowhead apex sits) being the occupied
square's center and the tail `(x0, y0)` the vacated square's center. -/
theorem arrow_endpoints_occupied_vacated (s : Creator) (board : Canvas)
    (prev next : Snapshot) (c0 c1 occ vac : Square) (rest : List Square)
    (harrow : s.arrow = true)
    (hch : changedSquares prev next = c0 :: c1 :: rest)
    (hocc : pieceAt next occ ≠ "")
    (hvac : pieceAt next vac = "")
    (hsel : (occ = c0 ∧ vac = c1) ∨ (occ = c1 ∧ vac = c0)) :
    createGifStep s board prev next =
      some (updateBoardImage s board next (changedSquares prev next),
        updateBoardImage s board next (changedSquares prev next) ++
          [DrawOp.arrow (pixelCenter s.reverse vac).1 (pixelCenter s.reverse vac).2
            (pixelCenter s.reverse occ).1 (pixelCenter s.reverse occ).2])
    ∧ (drawArrowVertices ((pixelCenter s.reverse vac).1 : ℝ) ((pixelCenter s.reverse vac).2 : ℝ)
        ((pixelCenter s.reverse occ).1 : ℝ) ((pixelCenter s.reverse occ).2 : ℝ)).2.2
      = (((pixelCenter s.reverse occ).1 : ℝ), ((pixelCenter s.reverse occ).2 : ℝ)) := by
  refine ⟨?_, drawArrowVertices_apex _ _ _ _⟩
  unfold createGifStep
  rcases hsel with ⟨ho, hv⟩ | ⟨ho, hv⟩
  · subst ho; subst hv
    simp [hch, harrow, hvac, pixelCenter]
  · subst ho; subst hv
    simp [hch, harrow, hocc, pixelCenter]

/-- Witness for C3 on the concrete e2-e4 snapshots: the changed squares
are [e2, e4], e4 is occupied afterwards and e2 vacated, and the arrow call
runs from e2's center (tail) to e4's center (apex). -/
theorem arrow_endpoints_occupied_vacated_witness :
    changedSquares snapE2E4start snapE2E4after = [squareE2, squareE4]
    ∧ pieceAt snapE2E4after squareE4 ≠ ""
    ∧ pieceAt snapE2E4after squareE2 = ""
    ∧ createGifStep demoCreatorArrow [] snapE2E4start snapE2E4after =
        some (updateBoardImage demoCreatorArrow [] snapE2E4after
            (changedSquares snapE2E4start snapE2E4after),
          updateBoardImage demoCreatorArrow [] snapE2E4after
            (changedSquares snapE2E4start snapE2E4after) ++
            [DrawOp.arrow (pixelCenter demoCreatorArrow.reverse squareE2).1
              (pixelCenter demoCreatorArrow.reverse squareE2).2
              (pixelCenter demoCreatorArrow.reverse squareE4).1
              (pixelCenter demoCreatorArrow.reverse squareE4).2]) :=
  ⟨rfl, by decide, rfl,
    (arrow_endpoints_occupied_vacated demoCreatorArrow [] snapE2E4start snapE2E4after
      squareE2 squareE4 squareE4 squareE2 [] rfl rfl (by decide) rfl
      (Or.inr ⟨rfl, rfl⟩)).1⟩

/-- The default-carrying last element of a non-empty list is a member. -/
theorem getLastD_mem {α : Type} : ∀ (l : List α) (d : α), l ≠ [] → l.getLastD d ∈ l := by
  intro l
  induction l with
  | nil => intro d h; exact absurd rfl h
  | cons a t ih =>
    intro d _
    rw [List.getLastD_cons]
    rcases eq_or_ne t [] with rfl | hne
    · simp
    · exact List.mem_cons_of_mem a (ih a hne)

/-- Appending a non-arrow operation preserves arrow-freeness. -/
theorem noArrow_append (c : Canvas) (op : DrawOp) (hc : NoArrow c)
    (hop : op.isArrowOp = false) : NoArrow (c ++ [op]) := by
  intro x hx
  rcases List.mem_append.mp hx with h | h
  · exact hc x h
  · rw [List.mem_singleton.mp h]
    exact hop

/-- Square repainting appends only tile and sprite operations. -/
theorem updateBoardImage_noArrow (s : Creator) (gameState : Snapshot) (changed : List Square) :
    ∀ board : Canvas, NoArrow board → NoArrow (updateBoardImage s board gameState changed) := by
  induction changed with
  | nil => intro board h; exact h
  | cons square rest ih =>
    intro board h
    simp only [updateBoardImage]
    apply ih
    split
    · exact noArrow_append _ _ (noArrow_append _ _ h rfl) rfl
    · exact noArrow_append _ _ h rfl

/-- The repaint-only run preserves arrow-freeness of the live canvas. -/
theorem repaintRun_noArrow (s : Creator) (plies : List Snapshot) :
    ∀ (prev : Snapshot) (board : Canvas), NoArrow board →
      NoArrow (repaintRun s prev plies board) := by
  induction plies with
  | nil => intro prev board h; exact h
  | cons cur rest ih =>
    intro prev board h
    simp only [repaintRun]
    exact ih cur _ (updateBoardImage_noArrow s cur _ _ h)

/-- `_update_board_image` reads only the reversal flag and the two tile
images from the instance. -/
theorem updateBoardImage_congr (s t : Creator) (hrv : s.reverse = t.reverse)
    (hws : s.ws = t.ws) (hbs : s.bs = t.bs) (gameState : Snapshot) (changed : List Square) :
    ∀ board : Canvas,
      updateBoardImage s board gameState changed = updateBoardImage t board gameState changed := by
  induction changed with
  | nil => intro board; rfl
  | cons square rest ih =>
    intro board
    simp only [updateBoardImage, hrv, hws, hbs]
    exact ih _

/-- A successful loop iteration repaints the changed squares on the live
canvas and captures that canvas, with at most one arrow overlay drawn on
the captured copy only. -/
theorem createGifStep_some (s : Creator) (board : Canvas) (prev cur : Snapshot)
    (b1 f : Canvas) (h : createGifStep s board prev cur = some (b1, f)) :
    b1 = updateBoardImage s board cur (changedSquares prev cur) ∧ FrameOfCanvas f b1 := by
  simp only [createGifStep] at h
  split at h
  · split at h
    · split at h
      · exact Option.noConfusion h
      · rw [Option.some.injEq, Prod.mk.injEq] at h
        obtain ⟨h1, h2⟩ := h
        subst h1; subst h2
        exact ⟨rfl, Or.inr ⟨_, _, _, _, rfl⟩⟩
    · rw [Option.some.injEq, Prod.mk.injEq] at h
      obtain ⟨h1, h2⟩ := h
      subst h1; subst h2
      exact ⟨rfl, Or.inl rfl⟩
  · rw [Option.some.injEq, Prod.mk.injEq] at h
    obtain ⟨h1, h2⟩ := h
    subst h1; subst h2
    exact ⟨rfl, Or.inl rfl⟩

/-- Full characterization of a successful loop run: the final live canvas
is the repaint-only fold, the pre-existing frames are preserved in place,
and position `frames.length + i` holds the frame captured after ply
`i + 1`, a copy of the live canvas at that point possibly extended by one
arrow overlay. -/
theorem runPlies_spec (s : Creator) (b2 : Canvas) (fs : List Canvas) :
    ∀ (plies : List Snapshot) (prev : Snapshot) (board : Canvas) (frames : List Canvas),
      runPlies s prev plies board frames = some (b2, fs) →
      b2 = repaintRun s prev plies board
      ∧ fs.length = frames.length + plies.length
      ∧ (∀ j, j < frames.length → fs[j]? = frames[j]?)
      ∧ (∀ i, i < plies.length → ∃ f, fs[frames.length + i]? = some f
          ∧ FrameOfCanvas f (repaintRun s prev (plies.take (i + 1)) board)) := by
  intro plies
  induction plies with
  | nil =>
    intro prev board frames h
    simp only [runPlies, Option.some.injEq, Prod.mk.injEq] at h
    obtain ⟨hb, hf⟩ := h
    subst hb; subst hf
    refine ⟨rfl, by simp, fun j hj => rfl, fun i hi => absurd hi (by simp)⟩
  | cons cur rest ih =>
    intro prev board frames h
    simp only [runPlies] at h
    rcases hstep : createGifStep s board prev cur with _ | bf
    · rw [hstep] at h; exact Option.noConfusion h
    · rw [hstep] at h
      obtain ⟨bb1, f0⟩ := bf
      obtain ⟨hb1, hfc⟩ := createGifStep_some s board prev cur bb1 f0 hstep
      obtain ⟨ih1, ih2, ih3, ih4⟩ := ih cur bb1 (frames ++ [f0]) h
      have hrepaint : repaintRun s prev (cur :: rest) board = repaintRun s cur rest bb1 := by
        simp only [repaintRun]; rw [← hb1]
      refine ⟨?_, ?_, ?_, ?_⟩
      · rw [hrepaint]; exact ih1
      · simp only [List.length_append, List.length_singleton] at ih2
        simp only [List.length_cons]
        omega
      · intro j hj
        have h3 := ih3 j (by simp only [List.length_append, List.length_singleton]; omega)
        rw [h3]
        exact List.getElem?_append_left hj
      · intro i hi
        cases i with
        | zero =>
          refine ⟨f0, ?_, ?_⟩
          · have h3 := ih3 frames.length (by simp)
            rw [Nat.add_zero, h3]
            exact List.getElem?_concat_length _ _
          · have htake : repaintRun s prev ((cur :: rest).take 1) board = bb1 := by
              simp only [List.take_succ_cons, List.take_zero, repaintRun]
              exact hb1.symm
            rw [htake]
            exact hfc
        | succ i1 =>
          have hi1 : i1 < rest.length := by
            simp only [List.length_cons] at hi; omega
          obtain ⟨f, hf1, hf2⟩ := ih4 i1 hi1
          refine ⟨f, ?_, ?_⟩
          · have hidx : frames.length + (i1 + 1) = (frames ++ [f0]).length + i1 := by
              simp only [List.length_append, List.length_singleton]; omega
            rw [hidx]
            exact hf1
          · have htake : repaintRun s prev ((cur :: rest).take (i1 + 1 + 1)) board
                = repaintRun s cur (rest.take (i1 + 1)) bb1 := by
              simp only [List.take_succ_cons, repaintRun]
              rw [← hb1]
            rw [htake]
            exact hf2

/-- Shape of a successful `create_gif` run: the result creator is the
(possibly redrawn) instance, and the frame list is the loop's frame list
followed by three extra copies of its final frame. -/
theorem createGif_some (s : Creator) (g : ChessGameModel) (pr : Creator × GifResult)
    (h : createGif s g = some pr) :
    ∃ (b2 : Canvas) (fs : List Canvas),
      runPlies (if s.should_redraw then drawBoard s else s) g.start g.plies
        (if s.should_redraw then drawBoard s else s).initial_board
        [(if s.should_redraw then drawBoard s else s).initial_board] = some (b2, fs)
      ∧ pr = (if s.should_redraw then drawBoard s else s,
          { frames := fs ++ [fs.getLastD [], fs.getLastD [], fs.getLastD []]
            duration_ms := ratTrunc ((if s.should_redraw then drawBoard s else s).duration * 1000)
            loop := 0 }) := by
  simp only [createGif] at h
  rcases hrp : runPlies (if s.should_redraw then drawBoard s else s) g.start g.plies
      (if s.should_redraw then drawBoard s else s).initial_board
      [(if s.should_redraw then drawBoard s else s).initial_board] with _ | p
  · rw [hrp] at h; exact Option.noConfusion h
  · rw [hrp] at h
    obtain ⟨b2, fs⟩ := p
    exact ⟨b2, fs, rfl, (Option.some.injEq _ _).mp h |>.symm⟩

/-- A failing first loop iteration makes the whole loop fail. -/
theorem runPlies_cons_none (s : Creator) (prev cur : Snapshot) (rest : List Snapshot)
    (board : Canvas) (frames : List Canvas)
    (h : createGifStep s board prev cur = none) :
    runPlies s prev (cur :: rest) board frames = none := by
  simp only [runPlies, h]

/-- A failing loop makes `create_gif` fail. -/
theorem createGif_none (s : Creator) (g : ChessGameModel)
    (h : runPlies (if s.should_redraw then drawBoard s else s) g.start g.plies
      (if s.should_redraw then drawBoard s else s).initial_board
      [(if s.should_redraw then drawBoard s else s).initial_board] = none) :
    createGif s g = none := by
  simp only [createGif, h]

/-- C1: a successful `create_gif` run over a game of N plies produces
exactly N+1 core frames — the initial frame at position 0 and the frame of
ply i+1 at position i+1 — followed by exactly 3 extra copies of the final
frame, for N+4 frames in total. -/
theorem create_gif_frame_count_structure (s : Creator) (g : ChessGameModel)
    (pr : Creator × GifResult) (h : createGif s g = some pr) :
    ∃ core : List Canvas,
      pr.2.frames = core ++ [core.getLastD [], core.getLastD [], core.getLastD []]
      ∧ core.length = g.plies.length + 1
      ∧ pr.2.frames.length = g.plies.length + 4
      ∧ core[0]? = some pr.1.initial_board
      ∧ (∀ i, i < g.plies.length → ∃ f, core[i + 1]? = some f
          ∧ FrameOfCanvas f (repaintRun pr.1 g.start (g.plies.take (i + 1))
              pr.1.initial_board)) := by
  obtain ⟨b2, fs, hrp, hpr⟩ := createGif_some s g pr h
  subst hpr
  obtain ⟨h1, h2, h3, h4⟩ :=
    runPlies_spec (if s.should_redraw then drawBoard s else s) b2 fs g.plies g.start _ _ hrp
  simp only [List.length_singleton] at h2
  refine ⟨fs, rfl, by omega, ?_, ?_, ?_⟩
  · show (fs ++ [fs.getLastD [], fs.getLastD [], fs.getLastD []]).length = g.plies.length + 4
    simp only [List.length_append]
    simp
    omega
  · have h30 := h3 0 (by simp)
    simpa using h30
  · intro i hi
    obtain ⟨f, hf1, hf2⟩ := h4 i hi
    refine ⟨f, ?_, hf2⟩
    simp only [List.length_singleton] at hf1
    rw [Nat.add_comm i 1]
    exact hf1

/-- Witness for C1 on a one-ply game with the default creator. -/
theorem create_gif_frame_count_structure_witness :
    createGif demoCreator demoGame = some demoPair1
    ∧ ∃ core : List Canvas,
        demoPair1.2.frames = core ++ [core.getLastD [], core.getLastD [], core.getLastD []]
        ∧ core.length = demoGame.plies.length + 1
        ∧ demoPair1.2.frames.length = demoGame.plies.length + 4
        ∧ core[0]? = some demoPair1.1.initial_board
        ∧ (∀ i, i < demoGame.plies.length → ∃ f, core[i + 1]? = some f
            ∧ FrameOfCanvas f (repaintRun demoPair1.1 demoGame.start
                (demoGame.plies.take (i + 1)) demoPair1.1.initial_board)) :=
  ⟨rfl, create_gif_frame_count_structure demoCreator demoGame demoPair1 rfl⟩

/-- C9: in a successful render from a freshly stale instance, the live
canvas after any number of plies is exactly the repaint-only fold and
contains no arrow operation, and every frame of the output — the initial
frame, the per-ply captures, and the held duplicates — is a copy of the
live canvas at some ply count, at most extended by the one arrow overlay
drawn on that copy only. -/
theorem frames_copy_live_canvas_arrow_free (s : Creator) (g : ChessGameModel)
    (pr : Creator × GifResult) (hfresh : s.should_redraw = true)
    (h : createGif s g = some pr) :
    (∀ n, NoArrow (repaintRun pr.1 g.start (g.plies.take n) pr.1.initial_board))
    ∧ (∀ f ∈ pr.2.frames, ∃ i, i ≤ g.plies.length
        ∧ FrameOfCanvas f (repaintRun pr.1 g.start (g.plies.take i) pr.1.initial_board)) := by
  obtain ⟨b2, fs, hrp, hpr⟩ := createGif_some s g pr h
  rw [if_pos hfresh] at hrp hpr
  subst hpr
  have hna : NoArrow (drawBoard s).initial_board := by
    have hnil : NoArrow ([] : Canvas) := by
      intro op hop
      exact absurd hop (List.not_mem_nil op)
    exact updateBoardImage_noArrow _ _ _ [] hnil
  obtain ⟨h1, h2, h3, h4⟩ := runPlies_spec (drawBoard s) b2 fs g.plies g.start _ _ hrp
  have hlen : fs.length = 1 + g.plies.length := by simpa using h2
  constructor
  · intro n
    exact repaintRun_noArrow _ _ _ _ hna
  · have hcase : ∀ f ∈ fs, ∃ i, i ≤ g.plies.length
        ∧ FrameOfCanvas f (repaintRun (drawBoard s) g.start (g.plies.take i)
            (drawBoard s).initial_board) := by
      intro f hf
      obtain ⟨j, hj⟩ := List.mem_iff_getElem?.mp hf
      have hjlt : j < fs.length := by
        by_contra hge
        rw [List.getElem?_eq_none (Nat.le_of_not_lt hge)] at hj
        exact Option.noConfusion hj
      rw [hlen] at hjlt
      rcases Nat.lt_or_ge j 1 with hj1 | hj1
      · have hj0 : j = 0 := by omega
        subst hj0
        have h30 := h3 0 (by simp)
        rw [h30] at hj
        simp only [List.getElem?_cons_zero, Option.some.injEq] at hj
        exact ⟨0, by omega, Or.inl hj.symm⟩
      · have hi : j - 1 < g.plies.length := by omega
        obtain ⟨f2, hf1, hf2⟩ := h4 (j - 1) hi
        have hidx : ([(drawBoard s).initial_board] : List Canvas).length + (j - 1) = j := by
          simp only [List.length_singleton]
          omega
        rw [hidx] at hf1
        rw [hj] at hf1
        have hfe : f = f2 := by
          injection hf1
        refine ⟨j - 1 + 1, by omega, ?_⟩
        rw [hfe]
        exact hf2
    intro f hf
    rcases List.mem_append.mp hf with hf | hf
    · exact hcase f hf
    · have hne : fs ≠ [] := by
        intro hc
        rw [hc] at hlen
        simp only [List.length_nil] at hlen
        omega
      have hl : fs.getLastD [] ∈ fs := getLastD_mem fs [] hne
      simp only [List.mem_cons, List.not_mem_nil, or_false] at hf
      rcases hf with rfl | rfl | rfl <;> exact hcase _ hl

/-- Witness for C9 on a one-ply game with the default (fresh) creator. -/
theorem frames_copy_live_canvas_arrow_free_witness :
    demoCreator.should_redraw = true
    ∧ createGif demoCreator demoGame = some demoPair1
    ∧ ((∀ n, NoArrow (repaintRun demoPair1.1 demoGame.start (demoGame.plies.take n)
          demoPair1.1.initial_board))
      ∧ (∀ f ∈ demoPair1.2.frames, ∃ i, i ≤ demoGame.plies.length
          ∧ FrameOfCanvas f (repaintRun demoPair1.1 demoGame.start (demoGame.plies.take i)
              demoPair1.1.initial_board))) :=
  ⟨rfl, rfl, frames_copy_live_canvas_arrow_free demoCreator demoGame demoPair1 rfl rfl⟩

/-- C10: with the arrow overlay enabled, a ply whose changed-square set has
exactly one element passes the non-emptiness guard but fails on the
out-of-range index `changed_squares[1]`: the loop body and the whole
`create_gif` call fail instead of drawing or skipping the arrow. -/
theorem arrow_branch_singleton_change_index_error (s : Creator) (board : Canvas)
    (start next : Snapshot) (ha : s.arrow = true)
    (h1 : (changedSquares start next).length = 1) :
    createGifStep s board start next = none
    ∧ createGif s { start := start, plies := [next] } = none := by
  obtain ⟨c, hc⟩ := List.length_eq_one.mp h1
  have hstep : ∀ (t : Creator) (b : Canvas), t.arrow = true →
      createGifStep t b start next = none := by
    intro t b hta
    simp only [createGifStep, hc, hta]
    simp
  refine ⟨hstep s board ha, ?_⟩
  apply createGif_none
  apply runPlies_cons_none
  apply hstep
  split
  · exact ha
  · exact ha

/-- Witness for C10 on a concrete singleton-change ply. -/
theorem arrow_branch_singleton_change_index_error_witness :
    demoCreatorArrow.arrow = true
    ∧ (changedSquares snapSingleBefore snapSingleAfter).length = 1
    ∧ createGif demoCreatorArrow { start := snapSingleBefore, plies := [snapSingleAfter] }
        = none :=
  ⟨rfl, by decide,
    (arrow_branch_singleton_change_index_error demoCreatorArrow []
      snapSingleBefore snapSingleAfter rfl (by decide)).2⟩

/-- C7: mutating the reversal flag or either board color through its
setter marks the cached initial canvas stale, so the next render rebuilds
the renderer state through `_draw_board`: the new initial canvas is
repainted from the mutated configuration (whose colors and reversal the
rebuilt state carries), while an already-populated piece sprite cache is
left unchanged. -/
theorem config_mutation_invalidates_board_cache (s : Creator) (g g2 : ChessGameModel)
    (pr pr2 : Creator × GifResult) (m : ConfigMutation)
    (h1 : createGif s g = some pr)
    (hp : pr.1.pieces ≠ [])
    (h2 : createGif (applyMutation m pr.1) g2 = some pr2) :
    (applyMutation m pr.1).should_redraw = true
    ∧ pr2.1 = drawBoard (applyMutation m pr.1)
    ∧ pr2.1.ws = (applyMutation m pr.1).ws_color
    ∧ pr2.1.bs = (applyMutation m pr.1).bs_color
    ∧ pr2.1.reverse = (applyMutation m pr.1).reverse
    ∧ pr2.1.should_redraw = false
    ∧ pr2.1.initial_board = updateBoardImage pr2.1 [] INITIAL_STATE (stateKeys INITIAL_STATE)
    ∧ pr2.1.pieces = pr.1.pieces := by
  have hsr : (applyMutation m pr.1).should_redraw = true := by cases m <;> rfl
  obtain ⟨b2, fs, hrp, hpr⟩ := createGif_some (applyMutation m pr.1) g2 pr2 h2
  rw [if_pos hsr] at hpr
  subst hpr
  have hXp : (applyMutation m pr.1).pieces = pr.1.pieces := by cases m <;> rfl
  refine ⟨hsr, rfl, rfl, rfl, rfl, rfl, ?_, ?_⟩
  · exact updateBoardImage_congr _ _ rfl rfl rfl INITIAL_STATE (stateKeys INITIAL_STATE) []
  · show (drawBoard (applyMutation m pr.1)).pieces = pr.1.pieces
    show (if (applyMutation m pr.1).pieces = [] then ASSETS
      else (applyMutation m pr.1).pieces) = pr.1.pieces
    rw [hXp, if_neg hp]

/-- Witness for C7: render once, mutate the light-square color, render
again. -/
theorem config_mutation_invalidates_board_cache_witness :
    createGif demoCreator demoGame = some demoPair1
    ∧ demoPair1.1.pieces ≠ []
    ∧ createGif demoMutCreator demoGame = some demoPair2
    ∧ ((applyMutation (ConfigMutation.wsc demoColor) demoPair1.1).should_redraw = true
      ∧ demoPair2.1 = drawBoard (applyMutation (ConfigMutation.wsc demoColor) demoPair1.1)
      ∧ demoPair2.1.ws = (applyMutation (ConfigMutation.wsc demoColor) demoPair1.1).ws_color
      ∧ demoPair2.1.bs = (applyMutation (ConfigMutation.wsc demoColor) demoPair1.1).bs_color
      ∧ demoPair2.1.reverse
          = (applyMutation (ConfigMutation.wsc demoColor) demoPair1.1).reverse
      ∧ demoPair2.1.should_redraw = false
      ∧ demoPair2.1.initial_board
          = updateBoardImage demoPair2.1 [] INITIAL_STATE (stateKeys INITIAL_STATE)
      ∧ demoPair2.1.pieces = demoPair1.1.pieces) :=
  ⟨rfl, by rw [show demoPair1.1.pieces = ASSETS from rfl]; decide, rfl,
    config_mutation_invalidates_board_cache demoCreator demoGame demoGame demoPair1 demoPair2
      (ConfigMutation.wsc demoColor) rfl (by rw [show demoPair1.1.pieces = ASSETS from rfl]; decide)
      rfl⟩
